import Mathlib

/-!
Verification of the deepspeech.pytorch data-loading pipeline
(`data/data_loader.py`), shallowly embedded over lists of rationals.
Floating-point values are modelled as rationals; external numeric kernels
(SHA-1, `log1p`, Gaussian smoothing, the sox/librosa audio transforms and
the seeded `torch.randperm`) are parameters of the embedding, so every
theorem quantifies over their behaviour unless a concrete instance is
needed for a counterexample.
-/

set_option maxRecDepth 100000

namespace DataLoader

/-- A spectrogram: a list of frequency rows, each row a list of time samples. -/
abbrev Mat := List (List ℚ)

/-- `tensor.size(1)`: the time length, i.e. the length of the first row. -/
def size1 (m : Mat) : Nat := (m.headD []).length

/-- `np.ndarray.resize((n, cols))` for a row-major 2-D array whose column
count is unchanged: keep the first `n` rows, pad with zero rows. -/
def resizeRows (m : Mat) (n : Nat) (cols : Nat) : Mat :=
  m.take n ++ List.replicate (n - m.length) (List.replicate cols (0 : ℚ))

/-- `spect[81:] = spect[80:0:-1]` on a 161-row array: rows `81+k` are
assigned rows `80-k` (`k = 0..79`). -/
def mirrorFill (m : Mat) : Mat :=
  m.take 81 ++ (List.range 80).map (fun k => m.getD (80 - k) [])

/-- The frequency-axis post-processing of `SpectrogramParser.audio_to_stft`
applied to the magnitude matrix produced by the external STFT
(`librosa.stft` + `magphase` are external; their output is the argument).
`cols` is the number of time frames of the magnitude matrix. -/
def audio_to_stft (mag : Mat) (cols : Nat) : Mat :=
  if mag.length < 161 then (mirrorFill (resizeRows mag 161 cols)).take 161
  else mag.take 161

/-! ## Cache key derivation (`SpectrogramParser.load_audio_cache`, lines 129-137)

The SHA-1 digest (`hashlib.sha1(...).hexdigest()`) is an external primitive;
the embedding takes the hex-digest function `h` as a parameter.  File names
and path components are lists of characters; a path is its component list. -/

/-- `TEMPOS[tempo_id][0]`, the tempo label used in the cache filename. -/
def tempoName : Nat → List Char
  | 0 => "1.0".data
  | 1 => "0.9".data
  | _ => "1.1".data

/-- `TEMPOS[tempo_id][1]`, the tempo range passed to the augmenter. -/
def tempoRange : Nat → ℚ × ℚ
  | 0 => (1, 1)
  | 1 => (85/100, 95/100)
  | _ => (105/100, 115/100)

/-- `'avg' if self.channel == -1 else str(self.channel)`. -/
def chanName (channel : Int) : List Char :=
  if channel = -1 then "avg".data else (toString channel).data

/-- The cache path built by `load_audio_cache`:
`Path(cache_path, f_hash[:2], name + '.' + f_hash[2:] + '.' + tempo_name + '.' + chan + '.npy')`
where `f_hash = sha1(file bytes).hexdigest()[:9]`.  `h` is the hex-digest
function, `nm` the file's basename, `bytes` its content. -/
def cacheFn (h : List Nat → List Char) (root : List Char) (channel : Int)
    (tempoId : Nat) (nm : List Char) (bytes : List Nat) : List (List Char) :=
  [root, ((h bytes).take 9).take 2,
    nm ++ '.' :: (((h bytes).take 9).drop 2
      ++ '.' :: (tempoName tempoId ++ '.' :: (chanName channel ++ ".npy".data)))]

/-! ## Process RNG and the augmentation draws

`random.randrange` / `np.random.uniform` / `torch.rand` draw from ambient,
unseeded process RNG state.  The embedding threads that state explicitly:
`ints` feeds integer draws, `reals` feeds uniform draws in `[0,1]`. -/

structure PRng where
  ints : List Nat
  reals : List ℚ
deriving DecidableEq

/-- `random.randrange(n)`. -/
def drawInt (g : PRng) (n : Nat) : Nat × PRng :=
  (g.ints.headD 0 % n, { g with ints := g.ints.tail })

/-- A unit draw in `[0,1]` from the process RNG. -/
def drawReal (g : PRng) : ℚ × PRng :=
  (g.reals.headD 0, { g with reals := g.reals.tail })

/-- `np.random.uniform(low, high)`. -/
def npUniform (lo hi : ℚ) (g : PRng) : ℚ × PRng :=
  let (r, g') := drawReal g
  (lo + (hi - lo) * r, g')

/-- The random draws of `load_randomly_augmented_audio` (lines 502-511):
tempo uniform in `tempo_range`, then gain uniform in `gain_range`; these are
the parameters handed to the external sox transform. -/
def augmentDraws (tr gr : ℚ × ℚ) (g : PRng) : (ℚ × ℚ) × PRng :=
  let (tempoValue, g1) := npUniform tr.1 tr.2 g
  let (gainValue, g2) := npUniform gr.1 gr.2 g1
  ((tempoValue, gainValue), g2)

/-! ## Normalization (`SpectrogramParser.normalize_audio`, lines 210-249)

`np.log1p` and `scipy.ndimage.filters.gaussian_filter1d` are external float
kernels; the embedding takes them as function parameters (`log1p`, `gauss50`,
`gauss20`), as well as `torch.std(dim=0)` (`stdCols`), and reproduces the
surrounding structure exactly. -/

inductive NormMode
  | mean | norm | frame | maxFrame | nonorm
deriving DecidableEq

def matMap (f : ℚ → ℚ) (m : Mat) : Mat := m.map (fun r => r.map f)

def matSum (m : Mat) : ℚ := (m.map (fun r => r.sum)).sum

def matCount (m : Mat) : Nat := (m.map (fun r => r.length)).sum

/-- `tensor.mean()`: the global mean over all entries. -/
def matMean (m : Mat) : ℚ := matSum m / matCount m

def matAddScalar (c : ℚ) (m : Mat) : Mat := matMap (fun x => x + c) m

def matScale (c : ℚ) (m : Mat) : Mat := matMap (fun x => c * x) m

def listMean (l : List ℚ) : ℚ := l.sum / l.length

/-- `tensor.mean(dim=0)` for a `[freq, time]` tensor: per-time-column means. -/
def colMeans (m : Mat) : List ℚ :=
  (List.range (size1 m)).map (fun t => listMean (m.map (fun r => r.getD t 0)))

/-- `SpectrogramParser.normalize_audio`.  Mode `nonorm` is the
`not self.normalize or self.normalize == 'none'` branch. -/
def normalize_audio (mode : NormMode) (log1p : ℚ → ℚ)
    (gauss50 gauss20 : List ℚ → List ℚ) (stdCols : Mat → List ℚ)
    (spect : Mat) : Mat :=
  match mode with
  | NormMode.mean =>
      let s := matMap log1p spect
      matAddScalar (-(matMean s)) s
  | NormMode.norm =>
      let s := matMap log1p spect
      let s1 := matAddScalar (-(matMean s)) s
      matScale (1 / listMean (stdCols s1)) s1
  | NormMode.frame =>
      let s := matMap log1p spect
      matAddScalar (-(listMean (gauss50 (colMeans s)))) s
  | NormMode.maxFrame =>
      let s := matMap log1p (matScale 1048576 spect)
      matAddScalar (-(listMean (gauss20 (colMeans s)))) s
  | NormMode.nonorm => matMap log1p spect

/-! ## Cache state and `parse_audio` (lines 129-188)

The call touches at most one cache key per tempo id (path and channel are
fixed for the call), so the file system is modelled per tempo id: the cache
file at `cache_fn`, the temporary file `cache_fn + '.tmp.npy'`, and the
legacy flat-scheme file `old_cache_fn`.  A stored file either deserializes
to a spectrogram (`good`) or raises on `np.load` (`corrupt`). -/

inductive CFile
  | good (m : Mat)
  | corrupt
deriving DecidableEq

structure KeyState where
  entry : Option CFile
  tmp : Option CFile
  legacy : Option CFile
deriving DecidableEq

def emptyKey : KeyState := ⟨none, none, none⟩

/-- The cache file system: one `KeyState` per tempo id. -/
def FsState := Nat → KeyState

def setKey (fs : FsState) (i : Nat) (k : KeyState) : FsState :=
  fun j => if j = i then k else fs j

/-- Legacy migration (lines 137-140): if `old_cache_fn` exists and
`cache_fn` does not, move the legacy file into the cache. -/
def migrate (k : KeyState) : KeyState :=
  if k.legacy.isSome ∧ k.entry = none then
    { k with entry := k.legacy, legacy := none }
  else k

/-- The read part of `load_audio_cache` (lines 141-150): after migration,
`np.load` the cache file; any deserialization exception is caught and
logged, leaving `spec = None`.  Returns the state after migration, the
loaded spectrogram if any, and whether a load error was logged. -/
def load_audio_cache (fs : FsState) (tempoId : Nat) :
    FsState × Option Mat × Bool :=
  let k := migrate (fs tempoId)
  let fs1 := setKey fs tempoId k
  match k.entry with
  | some (CFile.good m) => (fs1, some m, false)
  | some CFile.corrupt => (fs1, none, true)
  | none => (fs1, none, false)

/-- Exceptions that can escape `parse_audio` in the model. -/
inductive PyExc
  | kbInterrupt
  | fileNotFound
deriving DecidableEq

/-- Where a `KeyboardInterrupt` arrives inside the `try` block of the cache
write (lines 179-184), if at all. -/
inductive IPoint
  | noInt
  | duringSave
  | beforeRename
  | afterRename
deriving DecidableEq

/-- `os.unlink(cache_fn)` in the `except KeyboardInterrupt` handler: removes
the target if present, else raises `FileNotFoundError`.  The handler has no
`raise`, so when `unlink` succeeds the interrupt is swallowed. -/
def unlinkEntry (k : KeyState) : KeyState × Option PyExc :=
  match k.entry with
  | some _ => ({ k with entry := none }, none)
  | none => (k, some PyExc.fileNotFound)

/-- The cache-write block (lines 179-184):
`np.save(tmp); os.rename(tmp, cache_fn)` guarded by the
`except KeyboardInterrupt: os.unlink(cache_fn)` handler. -/
def saveBlock (k : KeyState) (v : Mat) (ip : IPoint) : KeyState × Option PyExc :=
  match ip with
  | IPoint.noInt => ({ k with entry := some (CFile.good v), tmp := none }, none)
  | IPoint.duringSave => unlinkEntry { k with tmp := some CFile.corrupt }
  | IPoint.beforeRename => unlinkEntry { k with tmp := some (CFile.good v) }
  | IPoint.afterRename => unlinkEntry { k with entry := some (CFile.good v), tmp := none }

/-- Result of one `parse_audio` call.  `result` is the returned tensor
(`none` when an exception escapes, recorded in `exc`); `recomputed` is true
when the decode-augment-STFT branch ran; `saved` is true when the
`tempo_id == 0` save block ran; `loggedErr` is true when a cache
deserialization error was logged. -/
structure PAOut where
  result : Option Mat
  exc : Option PyExc
  fs : FsState
  recomputed : Bool
  saved : Bool
  loggedErr : Bool

/-- Line 186-187: `if self.augment and self.normalize == 'max_frame':
spect.add_(torch.rand(1) - 0.5)`. -/
def jitterStep (augment : Bool) (mode : NormMode) (m : Mat) (g : PRng) : Mat × PRng :=
  if augment ∧ mode = NormMode.maxFrame then
    let (r, g') := drawReal g
    (matAddScalar (r - 1/2) m, g')
  else (m, g)

/-- The body of `SpectrogramParser.parse_audio` after the tempo variant is
chosen (lines 157-188), for a parser with no noise injector (`noise_dir`
unset).  `rawStft` is the external composite `librosa.stft`-magnitude of
the sox tempo/gain-transformed audio, as a function of the drawn tempo and
gain; `cols` is its number of time frames.  The dead `load_audio` branch
(guarded by `self.augment or True`) is not modelled. -/
def parse_audio_core (augment : Bool) (mode : NormMode) (log1p : ℚ → ℚ)
    (gauss50 gauss20 : List ℚ → List ℚ) (stdCols : Mat → List ℚ)
    (rawStft : ℚ → ℚ → Mat) (cols : Nat) (tempoId : Nat)
    (fs : FsState) (g1 : PRng) (ip : IPoint) : PAOut :=
  match load_audio_cache fs tempoId with
  | (fs1, some m, logged) =>
      let (res, _) := jitterStep augment mode m g1
      ⟨some res, none, fs1, false, false, logged⟩
  | (fs1, none, logged) =>
      let ((tempoValue, gainValue), g2) := augmentDraws (tempoRange tempoId) (-10, 10) g1
      let spect := audio_to_stft (rawStft tempoValue gainValue) cols
      let spectN := normalize_audio mode log1p gauss50 gauss20 stdCols spect
      if tempoId = 0 then
        match saveBlock (fs1 tempoId) spectN ip with
        | (k, some e) => ⟨none, some e, setKey fs1 tempoId k, true, true, logged⟩
        | (k, none) =>
            let (res, _) := jitterStep augment mode spectN g2
            ⟨some res, none, setKey fs1 tempoId k, true, true, logged⟩
      else
        let (res, _) := jitterStep augment mode spectN g2
        ⟨some res, none, fs1, true, false, logged⟩

/-- `SpectrogramParser.parse_audio` (lines 152-188): choose the tempo
variant (`random.randrange(3)` when augmenting, else 0), then run the
cache-lookup / recompute / save pipeline of `parse_audio_core`. -/
def parse_audio (augment : Bool) (mode : NormMode) (log1p : ℚ → ℚ)
    (gauss50 gauss20 : List ℚ → List ℚ) (stdCols : Mat → List ℚ)
    (rawStft : ℚ → ℚ → Mat) (cols : Nat)
    (fs : FsState) (g : PRng) (ip : IPoint) : PAOut :=
  let (tempoId, g1) := if augment then drawInt g 3 else (0, g)
  parse_audio_core augment mode log1p gauss50 gauss20 stdCols rawStft cols tempoId fs g1 ip

/-! ## Samplers (lines 402-459)

Both samplers hold a list of bins (lists of dataset indices).
`np.random.shuffle` is the numpy in-place Fisher-Yates shuffle driven by the
unseeded process RNG; it is modelled by an explicit Fisher-Yates over a
stream of integer draws.  `torch.randperm(n, generator=g)` with
`g.manual_seed(epoch)` is an external deterministic function of
`(epoch, n)`, taken as a parameter `rp`. -/

def listSwap {α : Type} (l : List α) (i j : Nat) : List α :=
  match l.get? i, l.get? j with
  | some a, some b => (l.set i b).set j a
  | _, _ => l

/-- Fisher-Yates main loop: for `i` from `n-1` down to `1`, draw
`j ≤ i` and swap positions `i` and `j`. -/
def fyAux {α : Type} : Nat → List Nat → List α → List α
  | 0, _, l => l
  | i + 1, ds, l => fyAux i ds.tail (listSwap l (i + 1) (ds.headD 0 % (i + 2)))

/-- `np.random.shuffle(l)` driven by the process RNG draw stream `ds`. -/
def npShuffle {α : Type} (ds : List Nat) (l : List α) : List α :=
  fyAux (l.length - 1) ds l

/-- `BucketingSampler.shuffle(epoch)` (lines 420-421):
`np.random.shuffle(self.bins)` — the `epoch` argument is not used. -/
def bucketingShuffle (bins : List (List Nat)) (_epoch : Nat) (ds : List Nat) :
    List (List Nat) :=
  npShuffle ds bins

/-- `DistributedBucketingSampler.shuffle(epoch)` (lines 454-459): reorder
the bins by `torch.randperm(len(bins), generator)` seeded with `epoch`.
`rp seed n` is the external seeded permutation; `ds` is the ambient process
RNG stream, which this method never touches. -/
def distributedShuffle (rp : Nat → Nat → List Nat) (bins : List (List Nat))
    (epoch : Nat) (_ds : List Nat) : List (List Nat) :=
  (rp epoch bins.length).filterMap (fun i => bins.get? i)

/-- `int(math.ceil(len(bins) / num_replicas))` (`self.num_samples`). -/
def dbsNumSamples (b r : Nat) : Nat := (b + r - 1) / r

/-- `self.total_size = self.num_samples * self.num_replicas`. -/
def dbsTotal (b r : Nat) : Nat := dbsNumSamples b r * r

/-- `bins = self.bins + self.bins[:(self.total_size - len(self.bins))]`. -/
def dbsPadded (bins : List (List Nat)) (r : Nat) : List (List Nat) :=
  bins ++ bins.take (dbsTotal bins.length r - bins.length)

/-- Python slice `l[start::step]` for `step > 0`. -/
def sliceStride {α : Type} (l : List α) (start step : Nat) : List α :=
  (List.range ((l.length - start + (step - 1)) / step)).filterMap
    (fun k => l.get? (start + k * step))

/-- `DistributedBucketingSampler.__iter__` (lines 443-449) for replica
`rank` of `r`: pad the bins, assert the padded length equals `total_size`
(`none` models the `AssertionError`), then take every `r`-th bin starting
at the rank offset. -/
def dbsIter (bins : List (List Nat)) (r rank : Nat) : Option (List (List Nat)) :=
  let padded := dbsPadded bins r
  if padded.length = dbsTotal bins.length r then some (sliceStride padded rank r)
  else none

/-! ## Batch collation (`_collate_fn`, lines 365-390) -/

structure Sample where
  spect : Mat
  target : List Int
  path : List Char
deriving DecidableEq

def dummySample : Sample := ⟨[], [], []⟩

/-- Python `max(l, key=f)`: the first element with maximal key
(`None`-free model: empty input gives `none`, the code would raise). -/
def pyMax {α : Type} (f : α → Nat) : List α → Option α
  | [] => none
  | x :: xs => some (xs.foldl (fun m y => if f m < f y then y else m) x)

/-- Right-pad a row with zeros to length `n` (the effect of writing the row
into a zero tensor via `narrow(1, 0, seq_length).copy_`). -/
def padTo (row : List ℚ) (n : Nat) : List ℚ :=
  row ++ List.replicate (n - row.length) (0 : ℚ)

structure CollateOut where
  inputs : List (List Mat)
  targets : List Int
  filenames : List (List Char)
  input_percentages : List ℚ
  target_sizes : List Nat
deriving DecidableEq

/-- `sorted(batch, key=lambda sample: sample[0].size(1), reverse=True)`.
Python's `sorted` is a stable sort, embedded as insertion sort with the
same (total, transitive) comparison; a stable sort by a total preorder is
unique. -/
def sortedBatch (batch : List Sample) : List Sample :=
  batch.insertionSort (fun a b => size1 b.spect ≤ size1 a.spect)

/-- `max_seqlength = max(batch, key=func)[0].size(1)` computed on the
sorted batch, as in the source. -/
def collateTmax (batch : List Sample) : Nat :=
  size1 ((pyMax (fun s => size1 s.spect) (sortedBatch batch)).getD dummySample).spect

/-- `_collate_fn` (lines 365-390). -/
def _collate_fn (batch : List Sample) : CollateOut :=
  let sorted := sortedBatch batch
  let maxSeqlength := collateTmax batch
  { inputs := sorted.map (fun s => [s.spect.map (fun r => padTo r maxSeqlength)])
    targets := (sorted.map (fun s => s.target)).flatten
    filenames := sorted.map (fun s => s.path)
    input_percentages := sorted.map (fun s => (size1 s.spect : ℚ) / (maxSeqlength : ℚ))
    target_sizes := sorted.map (fun s => s.target.length) }

/-- Projection used to compare spectrograms at position `(0, 0)`. -/
def entry00 (m : Mat) : ℚ := (m.getD 0 []).getD 0 0

/-! ## Theorems -/

/-- C1 (amended): on a cache miss for the canonical tempo variant,
`parse_audio` persists the **post-normalization** spectrogram, and this is
also the value returned; on a cache hit the cached spectrogram is returned
directly, with no normalization applied to it. -/
theorem parse_audio_caches_normalized (mode : NormMode) (log1p : ℚ → ℚ)
    (gauss50 gauss20 : List ℚ → List ℚ) (stdCols : Mat → List ℚ)
    (rawStft : ℚ → ℚ → Mat) (cols : Nat) (fs fs' : FsState) (g : PRng) (m : Mat) :
    (((fs 0).entry = none → (fs 0).legacy = none →
      ((parse_audio false mode log1p gauss50 gauss20 stdCols rawStft cols fs g
          IPoint.noInt).fs 0).entry
        = some (CFile.good (normalize_audio mode log1p gauss50 gauss20 stdCols
            (audio_to_stft (rawStft (augmentDraws (tempoRange 0) (-10, 10) g).1.1
                (augmentDraws (tempoRange 0) (-10, 10) g).1.2) cols)))
      ∧ (parse_audio false mode log1p gauss50 gauss20 stdCols rawStft cols fs g
          IPoint.noInt).result
        = some (normalize_audio mode log1p gauss50 gauss20 stdCols
            (audio_to_stft (rawStft (augmentDraws (tempoRange 0) (-10, 10) g).1.1
                (augmentDraws (tempoRange 0) (-10, 10) g).1.2) cols)))) ∧
    ((fs' 0).entry = some (CFile.good m) →
      (parse_audio false mode log1p gauss50 gauss20 stdCols rawStft cols fs' g
          IPoint.noInt).result = some m) := by
  constructor
  · intro h1 h2
    simp [parse_audio, parse_audio_core, load_audio_cache, migrate, setKey, saveBlock,
      jitterStep, h1, h2]
  · intro h
    have hm : migrate (fs' 0) = fs' 0 := by
      simp [migrate, h]
    simp [parse_audio, parse_audio_core, load_audio_cache, hm, h, jitterStep]

/-- Witness for C1 (amended): the miss side at the empty file system and the
hit side at a file system holding `[[5]]`, both hypotheses discharged. -/
theorem parse_audio_caches_normalized_witness :
    (parse_audio false NormMode.nonorm id (fun l => l) (fun l => l) (fun _ => [])
        (fun _ _ => [[3]]) 1 (fun _ => emptyKey) ⟨[], []⟩ IPoint.noInt).result
      = some (normalize_audio NormMode.nonorm id (fun l => l) (fun l => l) (fun _ => [])
          (audio_to_stft [[3]] 1)) ∧
    (parse_audio false NormMode.nonorm id (fun l => l) (fun l => l) (fun _ => [])
        (fun _ _ => [[3]]) 1
        (fun _ => (⟨some (CFile.good [[5]]), none, none⟩ : KeyState)) ⟨[], []⟩
        IPoint.noInt).result = some [[5]] :=
  ⟨((parse_audio_caches_normalized NormMode.nonorm id (fun l => l) (fun l => l) (fun _ => [])
      (fun _ _ => [[3]]) 1 (fun _ => emptyKey)
      (fun _ => (⟨some (CFile.good [[5]]), none, none⟩ : KeyState)) ⟨[], []⟩ [[5]]).1
      rfl rfl).2,
    (parse_audio_caches_normalized NormMode.nonorm id (fun l => l) (fun l => l) (fun _ => [])
      (fun _ _ => [[3]]) 1 (fun _ => emptyKey)
      (fun _ => (⟨some (CFile.good [[5]]), none, none⟩ : KeyState)) ⟨[], []⟩ [[5]]).2 rfl⟩

/-- C1 (counterexample): on a concrete canonical-variant cache miss the
persisted value is **not** the raw (pre-normalization) magnitude
spectrogram.  Even the `normalize=False`/`'none'` branch applies `log1p`
before the save at line 180 runs; `log1p` is instantiated with a function
agreeing with the real one on the occurring inputs (`log1p 0 = 0`,
`log1p 3 ≠ 3`). -/
theorem parse_audio_cached_value_not_raw :
    ((parse_audio false NormMode.nonorm (fun x => if x = 0 then 0 else 1)
        (fun l => l) (fun l => l) (fun _ => [])
        (fun _ _ => [[3]]) 1 (fun _ => emptyKey) ⟨[], []⟩ IPoint.noInt).fs 0).entry
      ≠ some (CFile.good (audio_to_stft [[3]] 1)) := by decide

/-- C2: the canonical (tempo id 0) cache-miss pipeline is **not**
deterministic.  The tempo draw is pinned to 1.0 by the degenerate range
`(1.0, 1.0)`, but `load_randomly_augmented_audio` also draws a gain
uniformly from `(-10, 10)` and hands it to the sox transform, so two
executions whose process RNGs yield unit draws `0` resp. `1/2` for the gain
feed different gains to the transform and return (and cache) different
spectrograms whenever the transform is gain-sensitive (here
`rawStft = fun _ gv => [[gv]]`). -/
theorem canonical_pipeline_not_deterministic :
    (augmentDraws (tempoRange 0) (-10, 10) ⟨[], [0, 0]⟩).1.1 = 1 ∧
    (augmentDraws (tempoRange 0) (-10, 10) ⟨[], [0, 1/2]⟩).1.1 = 1 ∧
    ((parse_audio false NormMode.nonorm id (fun l => l) (fun l => l) (fun _ => [])
        (fun _ gv => [[gv]]) 1 (fun _ => emptyKey) ⟨[], [0, 0]⟩
        IPoint.noInt).result.map entry00)
      ≠ ((parse_audio false NormMode.nonorm id (fun l => l) (fun l => l) (fun _ => [])
        (fun _ gv => [[gv]]) 1 (fun _ => emptyKey) ⟨[], [0, 1/2]⟩
        IPoint.noInt).result.map entry00) := by
  refine ⟨?_, ?_, ?_⟩
  · show (1 : ℚ) + (1 - 1) * 0 = 1
    norm_num
  · show (1 : ℚ) + (1 - 1) * 0 = 1
    norm_num
  · have h1 : ((parse_audio false NormMode.nonorm id (fun l => l) (fun l => l) (fun _ => [])
        (fun _ gv => [[gv]]) 1 (fun _ => emptyKey) ⟨[], [0, 0]⟩
        IPoint.noInt).result.map entry00) = some ((-10 : ℚ) + (10 - -10) * 0) := rfl
    have h2 : ((parse_audio false NormMode.nonorm id (fun l => l) (fun l => l) (fun _ => [])
        (fun _ gv => [[gv]]) 1 (fun _ => emptyKey) ⟨[], [0, 1/2]⟩
        IPoint.noInt).result.map entry00) = some ((-10 : ℚ) + (10 - -10) * (1/2)) := rfl
    rw [h1, h2]
    intro h
    have h3 := Option.some.inj h
    norm_num at h3

/-- C3: evaluation of the write-interruption handler at the failing input —
a `KeyboardInterrupt` arriving between `np.save` and `os.rename` on a fresh
cache miss.  The handler `os.unlink(cache_fn)` targets the final path, which
does not exist yet, so a `FileNotFoundError` (not the interruption) escapes,
and the completed `.tmp.npy` artifact is left behind. -/
theorem interrupted_write_wrong_cleanup :
    (((parse_audio false NormMode.nonorm id (fun l => l) (fun l => l) (fun _ => [])
        (fun _ _ => [[1]]) 1 (fun _ => emptyKey) ⟨[], [0, 0]⟩
        IPoint.beforeRename).exc = some PyExc.fileNotFound) ∧
      ((parse_audio false NormMode.nonorm id (fun l => l) (fun l => l) (fun _ => [])
        (fun _ _ => [[1]]) 1 (fun _ => emptyKey) ⟨[], [0, 0]⟩
        IPoint.beforeRename).fs 0).tmp ≠ none ∧
      (parse_audio false NormMode.nonorm id (fun l => l) (fun l => l) (fun _ => [])
        (fun _ _ => [[1]]) 1 (fun _ => emptyKey) ⟨[], [0, 0]⟩
        IPoint.beforeRename).result = none) ∧
    ((parse_audio false NormMode.nonorm id (fun l => l) (fun l => l) (fun _ => [])
        (fun _ _ => [[1]]) 1 (fun _ => emptyKey) ⟨[], [0, 0]⟩
        IPoint.afterRename).exc ≠ some PyExc.kbInterrupt) := by
  refine ⟨⟨rfl, ?_, rfl⟩, ?_⟩
  · intro h
    exact Option.noConfusion h
  · intro h
    exact Option.noConfusion h

/-- Two lists agreeing on `take n` and `drop n` are equal. -/
theorem take_drop_ext {α : Type} (l1 l2 : List α) (n : Nat)
    (h1 : l1.take n = l2.take n) (h2 : l1.drop n = l2.drop n) : l1 = l2 := by
  rw [← List.take_append_drop n l1, h1, h2, List.take_append_drop]

/-- C5 (amended): the cache path is a function of the truncated content
hash, the tempo variant, the channel selector **and the file's basename**.
With basename, tempo and channel fixed, two byte contents map to the same
path exactly when their 9-character truncated hex digests agree; with the
content fixed, two basenames map to the same path exactly when they are
equal — so renaming a file does change its cache path. -/
theorem cache_key_derivation (h : List Nat → List Char) (root : List Char)
    (channel : Int) (tempoId : Nat) :
    (∀ nm b1 b2, cacheFn h root channel tempoId nm b1 = cacheFn h root channel tempoId nm b2
        ↔ (h b1).take 9 = (h b2).take 9) ∧
    (∀ nm1 nm2 b, cacheFn h root channel tempoId nm1 b = cacheFn h root channel tempoId nm2 b
        ↔ nm1 = nm2) := by
  constructor
  · intro nm b1 b2
    simp only [cacheFn, List.cons.injEq, and_true, true_and]
    constructor
    · rintro ⟨h2, h3⟩
      have h4 := List.append_cancel_left h3
      injection h4 with _ h5
      exact take_drop_ext _ _ 2 h2 (List.append_cancel_right h5)
    · intro hq
      rw [hq]
      exact ⟨rfl, rfl⟩
  · intro nm1 nm2 b
    simp only [cacheFn, List.cons.injEq, and_true, true_and]
    constructor
    · intro h3
      exact List.append_cancel_right h3
    · intro hq
      rw [hq]

/-- Witness for C5 (amended): at a concrete digest function, equal contents
with the same basename give the same path. -/
theorem cache_key_derivation_witness :
    cacheFn (fun _ => "abcdef0123".data) "cache".data (-1) 0 "x.wav".data [1]
      = cacheFn (fun _ => "abcdef0123".data) "cache".data (-1) 0 "x.wav".data [2] :=
  ((cache_key_derivation (fun _ => "abcdef0123".data) "cache".data (-1) 0).1
    "x.wav".data [1] [2]).mpr rfl

/-- C5 (counterexample): two files with identical byte content but
different basenames get different cache paths (for any digest function the
hash parts coincide, so the difference comes from the embedded basename;
shown at a concrete digest function). -/
theorem cache_path_depends_on_basename :
    cacheFn (fun _ => "abcdef0123".data) "cache".data (-1) 0 "a.wav".data [0]
      ≠ cacheFn (fun _ => "abcdef0123".data) "cache".data (-1) 0 "b.wav".data [0] := by
  decide

/-- C6 (amended): the `tempo_id == 0` save block of `parse_audio` runs
exactly when the chosen tempo variant is canonical **and** the cache lookup
missed; for non-canonical variants the file system is left exactly as the
read left it (no write beyond legacy migration), and the
decode-augment-STFT computation runs exactly when the lookup missed. -/
theorem save_iff_canonical_miss (augment : Bool) (mode : NormMode) (log1p : ℚ → ℚ)
    (gauss50 gauss20 : List ℚ → List ℚ) (stdCols : Mat → List ℚ)
    (rawStft : ℚ → ℚ → Mat) (cols : Nat) (fs : FsState) (g : PRng) (ip : IPoint) :
    ((parse_audio augment mode log1p gauss50 gauss20 stdCols rawStft cols fs g ip).saved = true
      ↔ ((if augment then (drawInt g 3).1 else 0) = 0
          ∧ (load_audio_cache fs (if augment then (drawInt g 3).1 else 0)).2.1 = none)) ∧
    ((if augment then (drawInt g 3).1 else 0) ≠ 0 →
      ((parse_audio augment mode log1p gauss50 gauss20 stdCols rawStft cols fs g ip).fs
          = (load_audio_cache fs (if augment then (drawInt g 3).1 else 0)).1
        ∧ (parse_audio augment mode log1p gauss50 gauss20 stdCols rawStft cols fs g ip).saved
          = false)) ∧
    ((parse_audio augment mode log1p gauss50 gauss20 stdCols rawStft cols fs g ip).recomputed
        = true
      ↔ (load_audio_cache fs (if augment then (drawInt g 3).1 else 0)).2.1 = none) := by
  have core : ∀ (aug : Bool) (tid : Nat) (g1 : PRng),
      ((parse_audio_core aug mode log1p gauss50 gauss20 stdCols rawStft cols tid fs g1
          ip).saved = true
        ↔ (tid = 0 ∧ (load_audio_cache fs tid).2.1 = none)) ∧
      (tid ≠ 0 →
        ((parse_audio_core aug mode log1p gauss50 gauss20 stdCols rawStft cols tid fs g1
            ip).fs = (load_audio_cache fs tid).1
          ∧ (parse_audio_core aug mode log1p gauss50 gauss20 stdCols rawStft cols tid fs g1
            ip).saved = false)) ∧
      ((parse_audio_core aug mode log1p gauss50 gauss20 stdCols rawStft cols tid fs g1
          ip).recomputed = true
        ↔ (load_audio_cache fs tid).2.1 = none) := by
    intro aug tid g1
    by_cases ht : tid = 0
    · subst ht
      rcases hE : (migrate (fs 0)).entry with _ | f
      · rcases hsb : saveBlock (setKey fs 0 (migrate (fs 0)) 0)
            (normalize_audio mode log1p gauss50 gauss20 stdCols
              (audio_to_stft
                (rawStft (augmentDraws (tempoRange 0) (-10, 10) g1).1.1
                  (augmentDraws (tempoRange 0) (-10, 10) g1).1.2) cols)) ip with ⟨k, eo⟩
        cases eo <;>
          simp [parse_audio_core, load_audio_cache, hE, hsb]
      · cases f
        · simp [parse_audio_core, load_audio_cache, hE]
        · rcases hsb : saveBlock (setKey fs 0 (migrate (fs 0)) 0)
              (normalize_audio mode log1p gauss50 gauss20 stdCols
                (audio_to_stft
                  (rawStft (augmentDraws (tempoRange 0) (-10, 10) g1).1.1
                    (augmentDraws (tempoRange 0) (-10, 10) g1).1.2) cols)) ip with ⟨k, eo⟩
          cases eo <;>
            simp [parse_audio_core, load_audio_cache, hE, hsb]
    · rcases hE : (migrate (fs tid)).entry with _ | f
      · simp [parse_audio_core, load_audio_cache, hE, ht]
      · cases f <;> simp [parse_audio_core, load_audio_cache, hE, ht]
  cases augment
  · simpa [parse_audio] using core false 0 g
  · simpa [parse_audio] using core true (drawInt g 3).1 (drawInt g 3).2

/-- Witness for C6 (amended): a canonical-variant miss on the empty file
system does run the save block. -/
theorem save_iff_canonical_miss_witness :
    (parse_audio false NormMode.nonorm id (fun l => l) (fun l => l) (fun _ => [])
        (fun _ _ => [[1]]) 1 (fun _ => emptyKey) ⟨[], []⟩ IPoint.noInt).saved = true :=
  (save_iff_canonical_miss false NormMode.nonorm id (fun l => l) (fun l => l) (fun _ => [])
      (fun _ _ => [[1]]) 1 (fun _ => emptyKey) ⟨[], []⟩ IPoint.noInt).1.mpr ⟨rfl, rfl⟩

/-- C6 (counterexample): a `parse_audio` call whose tempo variant is
canonical (augmentation off, so tempo id 0) but whose cache lookup hits
performs **no** cache write — refuting "persists if and only if the tempo
variant is canonical". -/
theorem canonical_hit_not_persisted :
    (parse_audio false NormMode.nonorm id (fun l => l) (fun l => l) (fun _ => [])
        (fun _ _ => [[1]]) 1
        (fun _ => (⟨some (CFile.good [[5]]), none, none⟩ : KeyState)) ⟨[], []⟩
        IPoint.noInt).saved = false ∧
    (parse_audio false NormMode.nonorm id (fun l => l) (fun l => l) (fun _ => [])
        (fun _ _ => [[1]]) 1
        (fun _ => (⟨some (CFile.good [[5]]), none, none⟩ : KeyState)) ⟨[], []⟩
        IPoint.noInt).fs 0 = ⟨some (CFile.good [[5]]), none, none⟩ := by
  exact ⟨rfl, rfl⟩

/-- C10: a cache file whose deserialization fails is logged and treated as
a cache miss: `parse_audio` recomputes, returns normally, and no exception
propagates to the caller. -/
theorem corrupt_cache_read_degrades_to_miss (mode : NormMode) (log1p : ℚ → ℚ)
    (gauss50 gauss20 : List ℚ → List ℚ) (stdCols : Mat → List ℚ)
    (rawStft : ℚ → ℚ → Mat) (cols : Nat) (fs : FsState) (g : PRng)
    (hc : (fs 0).entry = some CFile.corrupt) :
    (load_audio_cache fs 0).2.1 = none ∧ (load_audio_cache fs 0).2.2 = true ∧
    (parse_audio false mode log1p gauss50 gauss20 stdCols rawStft cols fs g
        IPoint.noInt).loggedErr = true ∧
    (parse_audio false mode log1p gauss50 gauss20 stdCols rawStft cols fs g
        IPoint.noInt).exc = none ∧
    (parse_audio false mode log1p gauss50 gauss20 stdCols rawStft cols fs g
        IPoint.noInt).recomputed = true ∧
    (parse_audio false mode log1p gauss50 gauss20 stdCols rawStft cols fs g
        IPoint.noInt).result.isSome = true := by
  have hm : migrate (fs 0) = fs 0 := by
    simp [migrate, hc]
  refine ⟨?_, ?_, ?_, ?_, ?_, ?_⟩ <;>
    simp [parse_audio, parse_audio_core, load_audio_cache, saveBlock, jitterStep, hm, hc]

/-- Witness for C10 at a concrete corrupt cache entry. -/
theorem corrupt_cache_read_degrades_to_miss_witness :
    ((fun _ : Nat => (⟨some CFile.corrupt, none, none⟩ : KeyState)) 0).entry
        = some CFile.corrupt ∧
    (parse_audio false NormMode.nonorm id (fun l => l) (fun l => l) (fun _ => [])
        (fun _ _ => [[1]]) 1 (fun _ => (⟨some CFile.corrupt, none, none⟩ : KeyState))
        ⟨[], []⟩ IPoint.noInt).exc = none :=
  ⟨rfl,
    (corrupt_cache_read_degrades_to_miss NormMode.nonorm id (fun l => l) (fun l => l)
      (fun _ => []) (fun _ _ => [[1]]) 1
      (fun _ => (⟨some CFile.corrupt, none, none⟩ : KeyState)) ⟨[], []⟩ rfl).2.2.2.1⟩

/-- C7 (amended): `DistributedBucketingSampler.shuffle` is deterministic in
the epoch — its result depends only on the epoch, the seeded permutation
function and the current bins, never on the ambient process RNG — while
`BucketingSampler.shuffle` ignores its `epoch` argument entirely and
shuffles with the unseeded process RNG. -/
theorem epoch_shuffle_rng_dependence (rp : Nat → Nat → List Nat)
    (bins : List (List Nat)) (e e1 e2 : Nat) (ds ds1 ds2 : List Nat) :
    distributedShuffle rp bins e ds1 = distributedShuffle rp bins e ds2 ∧
    bucketingShuffle bins e1 ds = bucketingShuffle bins e2 ds :=
  ⟨rfl, rfl⟩

/-- Witness for C7 (amended) at concrete bins, epochs and RNG streams. -/
theorem epoch_shuffle_rng_dependence_witness :
    distributedShuffle (fun _ n => List.range n) [[0], [1]] 5 [7]
        = distributedShuffle (fun _ n => List.range n) [[0], [1]] 5 [9] ∧
    bucketingShuffle [[0], [1]] 5 [3] = bucketingShuffle [[0], [1]] 6 [3] :=
  epoch_shuffle_rng_dependence (fun _ n => List.range n) [[0], [1]] 5 5 6 [3] [7] [9]

/-- C7 (counterexample): `BucketingSampler.shuffle` called twice with the
same epoch on the same bins produces different orderings when the ambient
process RNG states differ — the claimed epoch-determinism fails for
`BucketingSampler` (its shuffle is unseeded; the `epoch` argument is
unused). -/
theorem bucketing_shuffle_not_epoch_deterministic :
    bucketingShuffle [[0], [1]] 5 [0] ≠ bucketingShuffle [[0], [1]] 5 [1] := by
  decide

/-- C4: for every magnitude matrix the frequency axis of `audio_to_stft` is
exactly 161 bins, and when the natural bin count is below 161 the bins from
81 upward are the mirror reflection of bins 80 down to 1 of the
zero-resized spectrogram (row `i` equals row `161 - i`). -/
theorem stft_always_161_bins (mag : Mat) (cols : Nat) :
    (audio_to_stft mag cols).length = 161 ∧
    (mag.length < 161 → ∀ i, 81 ≤ i → i < 161 →
      (audio_to_stft mag cols).getD i []
        = (resizeRows mag 161 cols).getD (161 - i) []) := by
  have hPlen : mag.length < 161 → (resizeRows mag 161 cols).length = 161 := by
    intro h
    simp only [resizeRows, List.length_append, List.length_take, List.length_replicate]
    omega
  constructor
  · by_cases h : mag.length < 161
    · have hP := hPlen h
      simp only [audio_to_stft, if_pos h, mirrorFill, List.length_take, List.length_append,
        List.length_map, List.length_range, hP]
      omega
    · simp only [audio_to_stft, if_neg h, List.length_take]
      omega
  · intro h i h81 h161
    have hP := hPlen h
    simp only [audio_to_stft, if_pos h]
    rw [List.getD_eq_getElem?_getD, List.getElem?_take, if_pos h161]
    unfold mirrorFill
    rw [List.getElem?_append]
    have hA : ((resizeRows mag 161 cols).take 81).length = 81 := by
      simp [List.length_take, hP]
    rw [hA, if_neg (by omega)]
    rw [List.getElem?_map, List.getElem?_range (by omega : i - 81 < 80)]
    have h2 : 80 - (i - 81) = 161 - i := by omega
    simp [h2, List.getD_eq_getElem?_getD]

/-- `b ≤ ceil(b/r) * r`: the padded total is at least the bin count. -/
theorem le_dbsTotal (b r : Nat) (hr : 0 < r) : b ≤ dbsTotal b r := by
  unfold dbsTotal dbsNumSamples
  have hdm := Nat.div_add_mod (b + r - 1) r
  have hmlt : (b + r - 1) % r < r := Nat.mod_lt _ hr
  rw [Nat.mul_comm]
  revert hdm hmlt
  generalize r * ((b + r - 1) / r) = t
  intro hdm hmlt
  omega

/-- Number of indices of the slice `l[rank::r]` when `l` has length
`ns * r` and `rank < r`. -/
theorem slice_count (ns r rank : Nat) (hr : 0 < r) (hrank : rank < r) :
    (ns * r - rank + (r - 1)) / r = ns := by
  rcases Nat.eq_zero_or_pos ns with h0 | h1
  · subst h0
    simpa using Nat.div_eq_of_lt (by omega)
  · have hle : r ≤ ns * r := Nat.le_mul_of_pos_left r h1
    have heq : ns * r - rank + (r - 1) = ns * r + (r - 1 - rank) := by
      revert hle
      generalize ns * r = t
      intro hle
      omega
    rw [heq, Nat.mul_comm, Nat.mul_add_div hr, Nat.div_eq_of_lt (by omega), Nat.add_zero]

/-- A `filterMap` of in-range lookups is a `map` of `getD`s. -/
theorem filterMap_get_all_lt {α : Type} (l : List α) (d : α) (f : Nat → Nat) :
    ∀ ks : List Nat, (∀ k ∈ ks, f k < l.length) →
      ks.filterMap (fun k => l.get? (f k)) = ks.map (fun k => l.getD (f k) d) := by
  intro ks
  induction ks with
  | nil => intro _; rfl
  | cons a as ih =>
      intro hall
      have ha : f a < l.length := hall a (List.mem_cons_self a as)
      have hsome : l.get? (f a) = some (l.getD (f a) d) := by
        rw [List.get?_eq_getElem?, List.getD_eq_getElem?_getD, List.getElem?_eq_getElem ha]
        rfl
      simp only [List.filterMap_cons, List.map_cons, hsome,
        ih (fun k hk => hall k (List.mem_cons_of_mem a hk))]

/-- C8 (amended): provided the wrap-around padding needs at most one extra
copy of the bin list (`ceil(B/R)·R − B ≤ B`, e.g. whenever `B ≥ R`), the
padded bin list has exactly `ceil(B/R)·R` entries, each replica's iteration
succeeds and yields every `R`-th padded bin from its rank offset
(`num_samples` of them, all drawn from the original bins), and every bin is
yielded by the replica `j % R` — so the union over all ranks is the full
bin set and no bin is skipped. -/
theorem dbs_coverage (bins : List (List Nat)) (r : Nat) (hr : 0 < r)
    (hpad : dbsTotal bins.length r - bins.length ≤ bins.length) :
    (dbsPadded bins r).length = dbsTotal bins.length r ∧
    (∀ rank, rank < r →
      dbsIter bins r rank = some (sliceStride (dbsPadded bins r) rank r)) ∧
    (∀ rank, rank < r →
      (sliceStride (dbsPadded bins r) rank r).length = dbsNumSamples bins.length r) ∧
    (∀ rank x, x ∈ sliceStride (dbsPadded bins r) rank r → x ∈ bins) ∧
    (∀ j, j < bins.length →
      j % r < r ∧ bins.getD j [] ∈ sliceStride (dbsPadded bins r) (j % r) r) := by
  have hge := le_dbsTotal bins.length r hr
  have hlen : (dbsPadded bins r).length = dbsTotal bins.length r := by
    simp only [dbsPadded, List.length_append, List.length_take]
    omega
  have htotal : dbsTotal bins.length r = dbsNumSamples bins.length r * r := rfl
  have hcount : ∀ rank, rank < r →
      ((dbsPadded bins r).length - rank + (r - 1)) / r = dbsNumSamples bins.length r := by
    intro rank hrank
    rw [hlen, htotal]
    exact slice_count _ r rank hr hrank
  have hidx : ∀ rank, rank < r → ∀ k, k < dbsNumSamples bins.length r →
      rank + k * r < (dbsPadded bins r).length := by
    intro rank hrank k hk
    have h1 : rank + k * r < (k + 1) * r := by
      rw [Nat.succ_mul]
      omega
    have h2 : (k + 1) * r ≤ dbsNumSamples bins.length r * r :=
      Nat.mul_le_mul_right r hk
    rw [hlen, htotal]
    omega
  refine ⟨hlen, ?_, ?_, ?_, ?_⟩
  · intro rank _
    simp [dbsIter, hlen]
  · intro rank hrank
    unfold sliceStride
    rw [hcount rank hrank,
      filterMap_get_all_lt (dbsPadded bins r) [] (fun k => rank + k * r) _
        (fun k hk => hidx rank hrank k (List.mem_range.mp hk))]
    simp
  · intro rank x hx
    unfold sliceStride at hx
    rcases List.mem_filterMap.mp hx with ⟨k, _, hsome⟩
    rw [List.get?_eq_getElem?] at hsome
    have hmem : x ∈ dbsPadded bins r := List.getElem?_mem hsome
    rcases List.mem_append.mp hmem with hmem1 | hmem2
    · exact hmem1
    · exact List.take_subset _ _ hmem2
  · intro j hj
    have hmod : j % r < r := Nat.mod_lt _ hr
    refine ⟨hmod, ?_⟩
    unfold sliceStride
    rw [List.mem_filterMap]
    refine ⟨j / r, ?_, ?_⟩
    · rw [List.mem_range, hcount (j % r) hmod]
      exact (Nat.div_lt_iff_lt_mul hr).mpr (by rw [← htotal]; omega)
    · have hidxj : j % r + j / r * r = j := by
        have := Nat.mod_add_div j r
        rw [Nat.mul_comm] at this
        omega
      rw [List.get?_eq_getElem?, hidxj]
      have hj' : j < bins.length := hj
      unfold dbsPadded
      rw [List.getElem?_append, if_pos hj', List.getD_eq_getElem?_getD,
        List.getElem?_eq_getElem hj']
      rfl

/-- Witness for C8 (amended) at 3 bins over 2 replicas. -/
theorem dbs_coverage_witness :
    (0 < 2 ∧ dbsTotal ([[0], [1], [2]] : List (List Nat)).length 2
        - ([[0], [1], [2]] : List (List Nat)).length ≤ 3) ∧
    dbsIter [[0], [1], [2]] 2 1 = some (sliceStride (dbsPadded [[0], [1], [2]] 2) 1 2) ∧
    ([[0], [1], [2]] : List (List Nat)).getD 2 []
      ∈ sliceStride (dbsPadded [[0], [1], [2]] 2) (2 % 2) 2 :=
  ⟨⟨by decide, by decide⟩,
    (dbs_coverage [[0], [1], [2]] 2 (by decide) (by decide)).2.1 1 (by decide),
    ((dbs_coverage [[0], [1], [2]] 2 (by decide) (by decide)).2.2.2.2 2 (by decide)).2⟩

/-- C8 (counterexample): with 1 bin and 3 replicas the wrap-around padding
cannot reach `ceil(B/R)·R = 3` entries (a single extra copy of the bin list
is too short), so `DistributedBucketingSampler.__iter__` fails its internal
assertion instead of yielding the padded bins. -/
theorem dbs_pad_assert_failure :
    dbsIter [[0]] 3 0 = none ∧ (dbsPadded [[0]] 3).length ≠ dbsTotal 1 3 := by
  decide

/-- The fold underlying Python `max(l, key=f)` returns the start element or
a list element, and its key dominates all of them. -/
theorem pyMax_foldl_spec {α : Type} (f : α → Nat) :
    ∀ (xs : List α) (a : α),
      (xs.foldl (fun m y => if f m < f y then y else m) a = a
        ∨ xs.foldl (fun m y => if f m < f y then y else m) a ∈ xs) ∧
      f a ≤ f (xs.foldl (fun m y => if f m < f y then y else m) a) ∧
      (∀ x ∈ xs, f x ≤ f (xs.foldl (fun m y => if f m < f y then y else m) a)) := by
  intro xs
  induction xs with
  | nil =>
      intro a
      exact ⟨Or.inl rfl, Nat.le_refl _, by simp⟩
  | cons y ys ih =>
      intro a
      simp only [List.foldl_cons]
      rcases ih (if f a < f y then y else a) with ⟨hmem, hle, hall⟩
      have hstep : f a ≤ f (if f a < f y then y else a) := by
        by_cases hc : f a < f y
        · rw [if_pos hc]; omega
        · rw [if_neg hc]
      have hstepy : f y ≤ f (if f a < f y then y else a) := by
        by_cases hc : f a < f y
        · rw [if_pos hc]
        · rw [if_neg hc]; omega
      refine ⟨?_, Nat.le_trans hstep hle, ?_⟩
      · rcases hmem with h | h
        · rw [h]
          by_cases hc : f a < f y
          · rw [if_pos hc]
            exact Or.inr (List.mem_cons_self y ys)
          · rw [if_neg hc]
            exact Or.inl rfl
        · exact Or.inr (List.mem_cons_of_mem y h)
      · intro x hx
        rcases List.mem_cons.mp hx with rfl | hx'
        · exact Nat.le_trans hstepy hle
        · exact hall x hx'

/-- Python `max(l, key=f)` on a nonempty list: some element whose key
dominates the list. -/
theorem pyMax_spec {α : Type} (f : α → Nat) (l : List α) (hl : l ≠ []) :
    ∃ m, pyMax f l = some m ∧ m ∈ l ∧ ∀ x ∈ l, f x ≤ f m := by
  cases l with
  | nil => exact absurd rfl hl
  | cons a as =>
      rcases pyMax_foldl_spec f as a with ⟨hmem, hle, hall⟩
      refine ⟨_, rfl, ?_, ?_⟩
      · rcases hmem with h | h
        · rw [h]
          exact List.mem_cons_self a as
        · exact List.mem_cons_of_mem a h
      · intro x hx
        rcases List.mem_cons.mp hx with rfl | hx'
        · exact hle
        · exact hall x hx'

/-- `padTo` keeps the row's entries and extends with zeros. -/
theorem padTo_getD (row : List ℚ) (n t : Nat) :
    (padTo row n).getD t 0 = if t < row.length then row.getD t 0 else 0 := by
  rw [padTo, List.getD_eq_getElem?_getD, List.getElem?_append]
  by_cases ht : t < row.length
  · rw [if_pos ht, if_pos ht, List.getD_eq_getElem?_getD]
  · rw [if_neg ht, if_neg ht, List.getElem?_replicate]
    by_cases ht2 : t - row.length < n - row.length
    · rw [if_pos ht2]
      rfl
    · rw [if_neg ht2]
      rfl

/-- C9: `_collate_fn` sorts the batch by descending time length, produces a
`[N, 1, F, T_max]` zero-padded inputs tensor, per-position length fractions
`T_i / T_max`, target lengths summing to the length of the flattened
concatenated targets, and the matching paths. -/
theorem collate_spec (batch : List Sample) (f0 : Nat)
    (hne : batch ≠ [])
    (hwf : ∀ s ∈ batch, s.spect.length = f0 ∧
      ∀ row ∈ s.spect, row.length = size1 s.spect) :
    (sortedBatch batch).Perm batch ∧
    List.Sorted (fun a b => size1 b.spect ≤ size1 a.spect) (sortedBatch batch) ∧
    (∀ s ∈ sortedBatch batch, size1 s.spect ≤ collateTmax batch) ∧
    (_collate_fn batch).inputs.length = batch.length ∧
    (_collate_fn batch).inputs
      = (sortedBatch batch).map
          (fun s => [s.spect.map (fun r => padTo r (collateTmax batch))]) ∧
    (∀ x, x < batch.length →
      ((_collate_fn batch).inputs.getD x []).length = 1 ∧
      ∀ m ∈ (_collate_fn batch).inputs.getD x [],
        m.length = f0 ∧ ∀ row ∈ m, row.length = collateTmax batch) ∧
    (∀ s ∈ sortedBatch batch, ∀ row ∈ s.spect, ∀ t,
      (padTo row (collateTmax batch)).getD t 0
        = if t < row.length then row.getD t 0 else 0) ∧
    (∀ x, x < batch.length →
      (_collate_fn batch).input_percentages.getD x 0
        = (size1 ((sortedBatch batch).getD x dummySample).spect : ℚ)
            / (collateTmax batch : ℚ)) ∧
    (_collate_fn batch).target_sizes.sum = (_collate_fn batch).targets.length ∧
    (_collate_fn batch).filenames = (sortedBatch batch).map (fun s => s.path) := by
  have hperm : (sortedBatch batch).Perm batch :=
    List.perm_insertionSort _ batch
  have hlen : (sortedBatch batch).length = batch.length := hperm.length_eq
  have hsne : sortedBatch batch ≠ [] := by
    intro h0
    apply hne
    rw [← List.length_eq_zero, ← hlen, h0]
    rfl
  rcases pyMax_spec (fun s => size1 s.spect) (sortedBatch batch) hsne with
    ⟨m, hm, hmmem, hmax⟩
  have htmax : collateTmax batch = size1 m.spect := by
    rw [collateTmax, hm]
    rfl
  have hmax' : ∀ s ∈ sortedBatch batch, size1 s.spect ≤ collateTmax batch := by
    intro s hs
    rw [htmax]
    exact hmax s hs
  have hwf' : ∀ s ∈ sortedBatch batch, s.spect.length = f0 ∧
      ∀ row ∈ s.spect, row.length = size1 s.spect :=
    fun s hs => hwf s (hperm.mem_iff.mp hs)
  have hsorted : List.Sorted (fun a b => size1 b.spect ≤ size1 a.spect)
      (sortedBatch batch) := by
    haveI : IsTotal Sample (fun a b => size1 b.spect ≤ size1 a.spect) :=
      ⟨fun a b => (Nat.le_total (size1 b.spect) (size1 a.spect))⟩
    haveI : IsTrans Sample (fun a b => size1 b.spect ≤ size1 a.spect) :=
      ⟨fun _ _ _ h1 h2 => Nat.le_trans h2 h1⟩
    exact List.sorted_insertionSort _ batch
  have hinputs : (_collate_fn batch).inputs
      = (sortedBatch batch).map
          (fun s => [s.spect.map (fun r => padTo r (collateTmax batch))]) := rfl
  have hgetDmap : ∀ {β : Type} (f : Sample → β) (d : β) (x : Nat), x < batch.length →
      ((sortedBatch batch).map f).getD x d
        = f ((sortedBatch batch).getD x dummySample) := by
    intro β f d x hx
    have hx' : x < (sortedBatch batch).length := by omega
    rw [List.getD_eq_getElem?_getD, List.getElem?_map, List.getElem?_eq_getElem hx',
      List.getD_eq_getElem?_getD, List.getElem?_eq_getElem hx']
    rfl
  refine ⟨hperm, hsorted, hmax', ?_, hinputs, ?_, ?_, ?_, ?_, rfl⟩
  · rw [hinputs, List.length_map, hlen]
  · intro x hx
    have hx' : x < (sortedBatch batch).length := by omega
    have hmem : (sortedBatch batch).getD x dummySample ∈ sortedBatch batch := by
      rw [List.getD_eq_getElem?_getD, List.getElem?_eq_getElem hx']
      exact List.getElem_mem hx'
    have hget := hgetDmap
      (fun s => [s.spect.map (fun r => padTo r (collateTmax batch))]) [] x hx
    rw [hinputs, hget]
    rcases hwf' _ hmem with ⟨hf0, hrows⟩
    refine ⟨rfl, ?_⟩
    intro mm hmm
    rcases List.mem_singleton.mp hmm with rfl
    constructor
    · rw [List.length_map]
      exact hf0
    · intro row hrow
      rcases List.mem_map.mp hrow with ⟨row0, hrow0, rfl⟩
      have h1 : row0.length = size1 ((sortedBatch batch).getD x dummySample).spect :=
        hrows row0 hrow0
      have h2 : size1 ((sortedBatch batch).getD x dummySample).spect
          ≤ collateTmax batch := hmax' _ hmem
      simp only [padTo, List.length_append, List.length_replicate]
      omega
  · intro s _ row _ t
    exact padTo_getD row (collateTmax batch) t
  · intro x hx
    exact hgetDmap (fun s => (size1 s.spect : ℚ) / (collateTmax batch : ℚ)) 0 x hx
  · show ((sortedBatch batch).map (fun s => s.target.length)).sum
      = ((sortedBatch batch).map (fun s => s.target)).flatten.length
    rw [List.length_flatten, List.map_map]
    rfl

/-- Witness for C9 at the 3-sample batch with time lengths `[5, 3, 8]`:
the target-length sum matches the flattened targets and the fraction at
sorted position 0 is `T_0 / T_max`. -/
theorem collate_spec_witness :
    (_collate_fn [⟨[[1, 1, 1, 1, 1]], [1], "a".data⟩,
        ⟨[[2, 2, 2]], [2, 3], "b".data⟩,
        ⟨[[3, 3, 3, 3, 3, 3, 3, 3]], [], "c".data⟩]).target_sizes.sum
      = (_collate_fn [⟨[[1, 1, 1, 1, 1]], [1], "a".data⟩,
        ⟨[[2, 2, 2]], [2, 3], "b".data⟩,
        ⟨[[3, 3, 3, 3, 3, 3, 3, 3]], [], "c".data⟩]).targets.length ∧
    (_collate_fn [⟨[[1, 1, 1, 1, 1]], [1], "a".data⟩,
        ⟨[[2, 2, 2]], [2, 3], "b".data⟩,
        ⟨[[3, 3, 3, 3, 3, 3, 3, 3]], [], "c".data⟩]).input_percentages.getD 0 0
      = (size1 ((sortedBatch [⟨[[1, 1, 1, 1, 1]], [1], "a".data⟩,
            ⟨[[2, 2, 2]], [2, 3], "b".data⟩,
            ⟨[[3, 3, 3, 3, 3, 3, 3, 3]], [], "c".data⟩]).getD 0 dummySample).spect : ℚ)
          / (collateTmax [⟨[[1, 1, 1, 1, 1]], [1], "a".data⟩,
            ⟨[[2, 2, 2]], [2, 3], "b".data⟩,
            ⟨[[3, 3, 3, 3, 3, 3, 3, 3]], [], "c".data⟩] : ℚ) :=
  ⟨(collate_spec [⟨[[1, 1, 1, 1, 1]], [1], "a".data⟩,
      ⟨[[2, 2, 2]], [2, 3], "b".data⟩,
      ⟨[[3, 3, 3, 3, 3, 3, 3, 3]], [], "c".data⟩] 1 (by decide)
      (by decide)).2.2.2.2.2.2.2.2.1,
    (collate_spec [⟨[[1, 1, 1, 1, 1]], [1], "a".data⟩,
      ⟨[[2, 2, 2]], [2, 3], "b".data⟩,
      ⟨[[3, 3, 3, 3, 3, 3, 3, 3]], [], "c".data⟩] 1 (by decide)
      (by decide)).2.2.2.2.2.2.2.1 0 (by decide)⟩

/-- Witness for C4 at a concrete 2-row spectrogram: the output has 161
rows and row 160 mirrors row 1 of the zero-resized input. -/
theorem stft_always_161_bins_witness :
    (audio_to_stft [[(1 : ℚ)], [2]] 1).length = 161 ∧
    ([[(1 : ℚ)], [2]].length < 161 ∧
      (audio_to_stft [[(1 : ℚ)], [2]] 1).getD 160 []
        = (resizeRows [[(1 : ℚ)], [2]] 161 1).getD (161 - 160) []) :=
  ⟨(stft_always_161_bins [[(1 : ℚ)], [2]] 1).1,
    by decide,
    (stft_always_161_bins [[(1 : ℚ)], [2]] 1).2 (by decide) 160 (by decide) (by decide)⟩

end DataLoader
